import Mathlib

/-!
Verification development for the v2ray-finder health-checking core
(`src/v2ray_finder/health_checker.py` and the health portion of
`src/v2ray_finder/core.py`).

Python strings are modelled as `List Char` (`PyStr`).  Python `float`
is idealised as `ℚ` (all quality-score constants and the test latencies
are exactly representable, and the arithmetic of the score function is
exact at every value the claims mention).  Fallible Python code
(`try`/`except`) is modelled with `Option`.  Library calls the source
makes (`str.strip`, `str.split`, `str.replace`, `int(...)`,
`base64.b64decode`, `bytes.decode("utf-8")`, `json.loads`) are given
executable Lean models with Python's observable semantics.
-/

set_option maxRecDepth 4096

namespace V2ray

abbrev PyStr := List Char

/-- Coerce a Lean string literal into the `PyStr` model. -/
def pys (s : String) : PyStr := s.toList

/-- Python's `str.isspace` / whitespace set used by `str.strip()` and `int()`. -/
def pyIsSpace (c : Char) : Bool :=
  c = ' ' || c = '\t' || c = '\n' || c = '\x0b' || c = '\x0c' || c = '\r' ||
  (0x1c ≤ c.toNat && c.toNat ≤ 0x1f) || c.toNat = 0x85 || c.toNat = 0xa0 ||
  c.toNat = 0x1680 || (0x2000 ≤ c.toNat && c.toNat ≤ 0x200a) ||
  c.toNat = 0x2028 || c.toNat = 0x2029 || c.toNat = 0x202f ||
  c.toNat = 0x205f || c.toNat = 0x3000

/-- Python `str.strip()`: drop leading and trailing whitespace. -/
def pyStrip (s : PyStr) : PyStr :=
  ((s.dropWhile pyIsSpace).reverse.dropWhile pyIsSpace).reverse

/-- Python `str.startswith(p)`. -/
def pyStartsWith : PyStr → PyStr → Bool
  | [], _ => true
  | p :: ps, s =>
    match s with
    | [] => false
    | c :: cs => (p = c) && pyStartsWith ps cs

theorem pyStartsWith_iff (p s : PyStr) : pyStartsWith p s = true ↔ ∃ r, s = p ++ r := by
  induction p generalizing s with
  | nil => simp [pyStartsWith]
  | cons x xs ih =>
    cases s with
    | nil => simp [pyStartsWith]
    | cons c cs =>
      simp only [pyStartsWith, Bool.and_eq_true, decide_eq_true_eq, ih cs]
      constructor
      · rintro ⟨rfl, r, rfl⟩; exact ⟨r, rfl⟩
      · rintro ⟨r, hr⟩
        injection hr with h1 h2
        exact ⟨h1.symm, r, h2⟩

/-- Python `c in s` for a single character `c`. -/
def pyContains (c : Char) (s : PyStr) : Bool := s.any (· = c)

/-- Python `str.split(sep)` for a one-character separator `sep`
(`"".split("@") = [""]`, `"a@@b".split("@") = ["a","","b"]`). -/
def pySplitChar (sep : Char) : PyStr → List PyStr
  | [] => [[]]
  | x :: xs =>
    let r := pySplitChar sep xs
    if x = sep then [] :: r
    else
      match r with
      | h :: t => (x :: h) :: t
      | [] => [[x]]

theorem pySplitChar_ne_nil (sep : Char) (s : PyStr) : pySplitChar sep s ≠ [] := by
  cases s with
  | nil => simp [pySplitChar]
  | cons x xs =>
    simp only [pySplitChar]
    cases h : pySplitChar sep xs with
    | nil => by_cases hx : x = sep <;> simp [hx]
    | cons a t => by_cases hx : x = sep <;> simp [hx]

/-- Auxiliary for `pyReplace`, with explicit fuel (the fuel is always
sufficient because each step consumes at least one character). -/
def pyReplaceAux (pat rep : PyStr) : Nat → PyStr → PyStr
  | 0, s => s
  | _ + 1, [] => []
  | f + 1, x :: xs =>
    if pat.isPrefixOf (x :: xs) then
      rep ++ pyReplaceAux pat rep f ((x :: xs).drop pat.length)
    else
      x :: pyReplaceAux pat rep f xs

/-- Python `s.replace(pat, rep)` for nonempty `pat`: replaces every
occurrence of `pat`, scanning left to right. -/
def pyReplace (pat rep s : PyStr) : PyStr := pyReplaceAux pat rep s.length s

/-- Digit run of a Python integer literal, allowing single underscores
between digits (`int("1_0") = 10`, `int("1__0")` and `int("1_")` fail). -/
def pyDigitsAux (acc : Nat) : PyStr → Option Nat
  | [] => some acc
  | '_' :: c :: rest =>
    if c.isDigit then pyDigitsAux (acc * 10 + (c.toNat - 48)) rest else none
  | c :: rest =>
    if c.isDigit then pyDigitsAux (acc * 10 + (c.toNat - 48)) rest else none

/-- Python `int(s)` (base 10): optional surrounding whitespace, optional
sign, then digits with optional single underscores between them. -/
def pyIntOfStr (s : PyStr) : Option Int :=
  match pyStrip s with
  | '+' :: c :: rest =>
    if c.isDigit then (pyDigitsAux (c.toNat - 48) rest).map Int.ofNat else none
  | '-' :: c :: rest =>
    if c.isDigit then (pyDigitsAux (c.toNat - 48) rest).map (fun n => -(Int.ofNat n)) else none
  | c :: rest =>
    if c.isDigit then (pyDigitsAux (c.toNat - 48) rest).map Int.ofNat else none
  | [] => none

/-! ### base64 (model of `base64.b64decode` on `str` input, `validate=False`) -/

/-- Value of a base64 alphabet character. -/
def b64CharVal (c : Char) : Option Nat :=
  if 'A' ≤ c ∧ c ≤ 'Z' then some (c.toNat - 65)
  else if 'a' ≤ c ∧ c ≤ 'z' then some (c.toNat - 97 + 26)
  else if '0' ≤ c ∧ c ≤ '9' then some (c.toNat - 48 + 52)
  else if c = '+' then some 62
  else if c = '/' then some 63
  else none

/-- Is `c` in the base64 alphabet or padding? -/
def b64Keep (c : Char) : Bool := (b64CharVal c).isSome || c = '='

/-- Decode a run of base64 data characters (already mapped to sextet
values) into bytes; a trailing group of 2 or 3 sextets contributes 1
or 2 bytes (extra low bits discarded, as CPython's non-strict decoder
does). A trailing group of exactly 1 sextet is invalid. -/
def b64Quads : List Nat → Option (List Nat)
  | [] => some []
  | [_] => none
  | [a, b] => some [(a * 4 + b / 16) % 256]
  | [a, b, c] => some [(a * 4 + b / 16) % 256, (b % 16 * 16 + c / 4) % 256]
  | a :: b :: c :: d :: rest =>
    (b64Quads rest).map
      (fun bs => (a * 4 + b / 16) % 256 :: (b % 16 * 16 + c / 4) % 256 ::
                 (c % 4 * 64 + d) % 256 :: bs)

/-- Model of Python `base64.b64decode(s)` for a `str` argument with the
default `validate=False`: non-ASCII input raises (`None` here);
characters outside the alphabet are discarded; after discarding, the
length must be a multiple of 4, all `=` must be trailing, and the data
part must not leave a single trailing sextet. Returns the byte list. -/
def pyB64Decode (s : PyStr) : Option (List Nat) :=
  if s.all (fun c => c.toNat < 128) then
    let kept := s.filter b64Keep
    let data := kept.takeWhile (· ≠ '=')
    let pad := kept.drop data.length
    if kept.length % 4 = 0 ∧ pad.all (· = '=') then
      b64Quads (data.filterMap b64CharVal)
    else none
  else none

/-! ### UTF-8 (model of `bytes.decode("utf-8")`, strict errors) -/

/-- Is `b` a UTF-8 continuation byte? -/
def utf8Cont (b : Nat) : Bool := 0x80 ≤ b && b ≤ 0xbf

/-- Strict UTF-8 decoding of a byte list (rejects overlong forms,
surrogates and out-of-range code points, like Python's
`bytes.decode("utf-8")` with strict error handling). -/
def utf8Decode : List Nat → Option PyStr
  | [] => some []
  | b :: bs =>
    if b < 0x80 then (utf8Decode bs).map (Char.ofNat b :: ·)
    else if b < 0xc2 then none
    else if b < 0xe0 then
      match bs with
      | c1 :: bs' =>
        if utf8Cont c1 then
          (utf8Decode bs').map (Char.ofNat ((b - 0xc0) * 64 + (c1 - 0x80)) :: ·)
        else none
      | [] => none
    else if b < 0xf0 then
      match bs with
      | c1 :: c2 :: bs' =>
        let lo1 := if b = 0xe0 then 0xa0 else 0x80
        let hi1 := if b = 0xed then 0x9f else 0xbf
        if (lo1 ≤ c1 && c1 ≤ hi1) && utf8Cont c2 then
          (utf8Decode bs').map
            (Char.ofNat ((b - 0xe0) * 4096 + (c1 - 0x80) * 64 + (c2 - 0x80)) :: ·)
        else none
      | _ => none
    else if b ≤ 0xf4 then
      match bs with
      | c1 :: c2 :: c3 :: bs' =>
        let lo1 := if b = 0xf0 then 0x90 else 0x80
        let hi1 := if b = 0xf4 then 0x8f else 0xbf
        if (lo1 ≤ c1 && c1 ≤ hi1) && utf8Cont c2 && utf8Cont c3 then
          (utf8Decode bs').map
            (Char.ofNat ((b - 0xf0) * 262144 + (c1 - 0x80) * 4096 +
                         (c2 - 0x80) * 64 + (c3 - 0x80)) :: ·)
        else none
      | _ => none
    else none

/-! ### JSON (model of `json.loads`)

JSON values double as the model of the Python values the decoded data
flows into (`None` is `jnull`, numbers keep Python's `int`/`float`
distinction as `jint`/`jnum`, `float` idealised as `ℚ`). -/

inductive JVal where
  | jnull
  | jbool (b : Bool)
  | jint (n : Int)
  | jnum (q : ℚ)
  | jstr (s : PyStr)
  | jarr (xs : List JVal)
  | jobj (kvs : List (PyStr × JVal))
deriving Repr

/-- Python truthiness of a value. -/
def jTruthy : JVal → Bool
  | .jnull => false
  | .jbool b => b
  | .jint n => n ≠ 0
  | .jnum q => q ≠ 0
  | .jstr s => s ≠ []
  | .jarr xs => !xs.isEmpty
  | .jobj kvs => !kvs.isEmpty

/-- Python `a or b` (value-returning). -/
def pyOrVal (a b : JVal) : JVal := if jTruthy a then a else b

/-- `dict.get` on the parsed object: later duplicate keys win, as in the
`dict` that `json.loads` builds. -/
def jGet (kvs : List (PyStr × JVal)) (k : PyStr) : Option JVal :=
  kvs.foldl (fun acc p => if p.1 = k then some p.2 else acc) none

/-- Truncation toward zero, as Python `int(float)`. -/
def pyTrunc (q : ℚ) : Int := Int.tdiv q.num q.den

/-- Python `int(v)` applied to a decoded JSON value: fails (raises) on
`None`, strings parse per `int(str)`, booleans are 1/0, floats truncate. -/
def pyIntOfJVal : JVal → Option Int
  | .jnull => none
  | .jbool b => some (if b then 1 else 0)
  | .jint n => some n
  | .jnum q => some (pyTrunc q)
  | .jstr s => pyIntOfStr s
  | .jarr _ => none
  | .jobj _ => none

/-- JSON whitespace (`json.loads` skips exactly space, tab, LF, CR). -/
def jWs (c : Char) : Bool := c = ' ' || c = '\t' || c = '\n' || c = '\r'

def skipWs (s : PyStr) : PyStr := s.dropWhile jWs

def hexVal (c : Char) : Option Nat :=
  if '0' ≤ c ∧ c ≤ '9' then some (c.toNat - 48)
  else if 'a' ≤ c ∧ c ≤ 'f' then some (c.toNat - 97 + 10)
  else if 'A' ≤ c ∧ c ≤ 'F' then some (c.toNat - 65 + 10)
  else none

def hex4 (a b c d : Char) : Option Nat :=
  match hexVal a, hexVal b, hexVal c, hexVal d with
  | some x, some y, some z, some w => some (x * 4096 + y * 256 + z * 16 + w)
  | _, _, _, _ => none

/-- Body of a JSON string after the opening quote: returns the decoded
characters and the rest of the input after the closing quote.  Handles
the standard escapes and `\uXXXX` with surrogate-pair combination;
rejects raw control characters (strict mode) and lone surrogates (the
latter are not representable as Lean `Char`). -/
def parseJStrBody : PyStr → Option (PyStr × PyStr)
  | [] => none
  | c :: rest =>
    if c = Char.ofNat 34 then some ([], rest)
    else if c = Char.ofNat 92 then
      match rest with
      | [] => none
      | e :: rest' =>
        if e = Char.ofNat 34 then
          (parseJStrBody rest').map (fun p => (Char.ofNat 34 :: p.1, p.2))
        else if e = Char.ofNat 92 then
          (parseJStrBody rest').map (fun p => (Char.ofNat 92 :: p.1, p.2))
        else if e = '/' then
          (parseJStrBody rest').map (fun p => ('/' :: p.1, p.2))
        else if e = 'b' then
          (parseJStrBody rest').map (fun p => (Char.ofNat 8 :: p.1, p.2))
        else if e = 'f' then
          (parseJStrBody rest').map (fun p => (Char.ofNat 12 :: p.1, p.2))
        else if e = 'n' then
          (parseJStrBody rest').map (fun p => ('\n' :: p.1, p.2))
        else if e = 'r' then
          (parseJStrBody rest').map (fun p => ('\r' :: p.1, p.2))
        else if e = 't' then
          (parseJStrBody rest').map (fun p => ('\t' :: p.1, p.2))
        else if e = 'u' then
          match rest' with
          | h1 :: h2 :: h3 :: h4 :: rest2 =>
            match hex4 h1 h2 h3 h4 with
            | none => none
            | some n =>
              if 0xd800 ≤ n ∧ n ≤ 0xdbff then
                match rest2 with
                | b2 :: u2 :: h5 :: h6 :: h7 :: h8 :: rest4 =>
                  if b2 = Char.ofNat 92 ∧ u2 = 'u' then
                    match hex4 h5 h6 h7 h8 with
                    | none => none
                    | some m =>
                      if 0xdc00 ≤ m ∧ m ≤ 0xdfff then
                        (parseJStrBody rest4).map (fun p =>
                          (Char.ofNat (0x10000 + (n - 0xd800) * 1024 + (m - 0xdc00)) :: p.1, p.2))
                      else none
                  else none
                | _ => none
              else if 0xdc00 ≤ n ∧ n ≤ 0xdfff then none
              else (parseJStrBody rest2).map (fun p => (Char.ofNat n :: p.1, p.2))
          | _ => none
        else none
    else if c.toNat < 0x20 then none
    else (parseJStrBody rest).map (fun p => (c :: p.1, p.2))

/-- Decimal digit span value. -/
def digitsVal (ds : PyStr) : Nat := ds.foldl (fun a c => a * 10 + (c.toNat - 48)) 0

/-- JSON number, following the `NUMBER_RE` regex of `json`:
`-?(0|[1-9][0-9]*)(\.[0-9]+)?([eE][+-]?[0-9]+)?`; an integer literal
yields a Python `int` (`jint`), otherwise a `float` (`jnum`, exact ℚ). -/
def parseJNumber (s : PyStr) : Option (JVal × PyStr) :=
  let (neg, s1) := match s with
    | '-' :: t => (true, t)
    | _ => (false, s)
  let ip := s1.takeWhile Char.isDigit
  let ip := if ip = [] then [] else if ip.headD '0' = '0' then ['0'] else ip
  if ip = [] then none else
  let s2 := s1.drop ip.length
  let (fp, s3) := match s2 with
    | '.' :: t =>
      let ds := t.takeWhile Char.isDigit
      if ds = [] then ([], s2) else (ds, t.drop ds.length)
    | _ => ([], s2)
  let (ep, epNeg, s4) := match s3 with
    | 'e' :: t | 'E' :: t =>
      let (en, t') := match t with
        | '+' :: u => (false, u)
        | '-' :: u => (true, u)
        | _ => (false, t)
      let ds := t'.takeWhile Char.isDigit
      if ds = [] then ([], false, s3) else (ds, en, t'.drop ds.length)
    | _ => ([], false, s3)
  let sign : ℚ := if neg then -1 else 1
  if fp = [] ∧ ep = [] then
    some (.jint ((if neg then -1 else 1) * Int.ofNat (digitsVal ip)), s2)
  else
    let mant : ℚ := (digitsVal ip : ℚ) + (digitsVal fp : ℚ) / ((10 : ℚ) ^ fp.length)
    let q : ℚ := if epNeg then mant / (10 : ℚ) ^ digitsVal ep else mant * (10 : ℚ) ^ digitsVal ep
    some (.jnum (sign * q), s4)

inductive PMode where
  | pval
  | pobjItems
  | parrItems

inductive POut where
  | oval (v : JVal)
  | oobj (kvs : List (PyStr × JVal))
  | oarr (xs : List JVal)

/-- Fueled recursive JSON parser.  `pval` parses one value;
`pobjItems` parses `"k": v (, "k": v)* }` after a `{` (nonempty case);
`parrItems` parses `v (, v)* ]` after a `[` (nonempty case).  Every
recursive call consumes at least one character first, so fuel
`input length + 1` always suffices. -/
def parseP : Nat → PMode → PyStr → Option (POut × PyStr)
  | 0, _, _ => none
  | f + 1, .pval, s =>
    match skipWs s with
    | [] => none
    | c :: rest =>
      if c = Char.ofNat 123 then
        match skipWs rest with
        | c2 :: rest2 =>
          if c2 = Char.ofNat 125 then some (.oval (.jobj []), rest2)
          else
            match parseP f .pobjItems (c2 :: rest2) with
            | some (.oobj kvs, r) => some (.oval (.jobj kvs), r)
            | _ => none
        | [] => none
      else if c = '[' then
        match skipWs rest with
        | c2 :: rest2 =>
          if c2 = ']' then some (.oval (.jarr []), rest2)
          else
            match parseP f .parrItems (c2 :: rest2) with
            | some (.oarr xs, r) => some (.oval (.jarr xs), r)
            | _ => none
        | [] => none
      else if c = Char.ofNat 34 then
        (parseJStrBody rest).map (fun p => (.oval (.jstr p.1), p.2))
      else if c = 't' then
        match rest with
        | 'r' :: 'u' :: 'e' :: r => some (.oval (.jbool true), r)
        | _ => none
      else if c = 'f' then
        match rest with
        | 'a' :: 'l' :: 's' :: 'e' :: r => some (.oval (.jbool false), r)
        | _ => none
      else if c = 'n' then
        match rest with
        | 'u' :: 'l' :: 'l' :: r => some (.oval .jnull, r)
        | _ => none
      else
        (parseJNumber (c :: rest)).map (fun p => (.oval p.1, p.2))
  | f + 1, .pobjItems, s =>
    match s with
    | c :: rest =>
      if c = Char.ofNat 34 then
        match parseJStrBody rest with
        | none => none
        | some (key, r1) =>
          match skipWs r1 with
          | ':' :: r2 =>
            match parseP f .pval r2 with
            | some (.oval v, r3) =>
              match skipWs r3 with
              | ',' :: r4 =>
                match parseP f .pobjItems (skipWs r4) with
                | some (.oobj kvs, r5) => some (.oobj ((key, v) :: kvs), r5)
                | _ => none
              | c5 :: r5 =>
                if c5 = Char.ofNat 125 then some (.oobj [(key, v)], r5) else none
              | [] => none
            | _ => none
          | _ => none
      else none
    | [] => none
  | f + 1, .parrItems, s =>
    match parseP f .pval s with
    | some (.oval v, r1) =>
      match skipWs r1 with
      | ',' :: r2 =>
        match parseP f .parrItems r2 with
        | some (.oarr xs, r3) => some (.oarr (v :: xs), r3)
        | _ => none
      | ']' :: r2 => some (.oarr [v], r2)
      | _ => none
    | _ => none

/-- Model of Python `json.loads` (core JSON; the CPython extensions
`NaN`/`Infinity` are not representable in the ℚ idealisation and are
omitted). -/
def jsonLoads (s : PyStr) : Option JVal :=
  match parseP (s.length + 1) .pval s with
  | some (.oval v, r) => if skipWs r = [] then some v else none
  | _ => none

/-! ### `health_checker.py` -/

/-- `HealthStatus` enumeration. -/
inductive HealthStatus where
  | healthy
  | degraded
  | unreachable
  | invalid
deriving DecidableEq, Repr

/-- The `.value` string of a `HealthStatus` member. -/
def statusValue : HealthStatus → PyStr
  | .healthy => pys "healthy"
  | .degraded => pys "degraded"
  | .unreachable => pys "unreachable"
  | .invalid => pys "invalid"

/-- `ServerHealth` dataclass.  `host` and `port` are modelled as decoded
Python values (`JVal`), with `jnull` for `None`; the other optional
fields use `Option`. -/
structure ServerHealth where
  config : PyStr
  protocol : PyStr
  status : HealthStatus
  latency_ms : Option ℚ := none
  error : Option PyStr := none
  host : JVal := .jnull
  port : JVal := .jnull
  validation_error : Option PyStr := none

/-- `ServerHealth.quality_score`. -/
def quality_score (h : ServerHealth) : ℚ :=
  if h.status = HealthStatus.invalid then 0
  else if h.status = HealthStatus.unreachable then 10
  else
    match h.latency_ms with
    | none => 50
    | some l =>
      if l < 100 then 100
      else if l < 300 then 100 - ((l - 100) * 0.2)
      else max 30 (100 - (l * 0.15))

/-- `ServerValidator.extract_vmess_info` (the host value and the port;
the `"valid": True` field of the returned dict is constant and omitted). -/
def extract_vmess_info (config : PyStr) : Option (JVal × Int) :=
  let encoded := pyReplace (pys "vmess://") [] config
  let padding := 4 - encoded.length % 4
  let encoded := if padding ≠ 4 then encoded ++ List.replicate padding '=' else encoded
  match pyB64Decode encoded with
  | none => none
  | some bytes =>
    match utf8Decode bytes with
    | none => none
    | some decoded =>
      match jsonLoads decoded with
      | some (.jobj kvs) =>
        let host := pyOrVal ((jGet kvs (pys "add")).getD .jnull)
                            ((jGet kvs (pys "address")).getD .jnull)
        match pyIntOfJVal ((jGet kvs (pys "port")).getD (.jint 0)) with
        | some p => some (host, p)
        | none => none
      | _ => none

/-- Shared body of `extract_vless_info` / `extract_trojan_info` after
the prefix removal: `config.split("@")[1].split("?")[0].split(":")`
requiring exactly two parts with an integer second part. -/
def vlessCore (c : PyStr) : Option (PyStr × Int) :=
  if ¬ pyContains '@' c then none
  else
    match pySplitChar '@' c with
    | _ :: seg :: _ =>
      let p := (pySplitChar '?' seg).headD []
      match pySplitChar ':' p with
      | [h, pr] => (pyIntOfStr pr).map (fun n => (h, n))
      | _ => none
    | _ => none

/-- `ServerValidator.extract_vless_info`. -/
def extract_vless_info (config : PyStr) : Option (PyStr × Int) :=
  vlessCore (pyReplace (pys "vless://") [] config)

/-- `ServerValidator.extract_trojan_info`. -/
def extract_trojan_info (config : PyStr) : Option (PyStr × Int) :=
  vlessCore (pyReplace (pys "trojan://") [] config)

/-- The host/port tail shared by both branches of `extract_ss_info`:
`parts = t.split("@"); host_port = parts[1].split(":")[:2]` followed by
the source's `len(host_port) != 2` check and `int(...)` parse. -/
def ssHostPort (t : PyStr) : Option (PyStr × Int) :=
  match pySplitChar '@' t with
  | _ :: p1 :: _ =>
    match (pySplitChar ':' p1).take 2 with
    | [h, pr] => (pyIntOfStr pr).map (fun n => (h, n))
    | _ => none
  | _ => none

/-- `ServerValidator.extract_ss_info`. -/
def extract_ss_info (config : PyStr) : Option (PyStr × Int) :=
  let c := pyReplace (pys "ss://") [] config
  if pyContains '@' c then ssHostPort c
  else
    match pyB64Decode c with
    | none => none
    | some bytes =>
      match utf8Decode bytes with
      | none => none
      | some decoded =>
        if pyContains '@' decoded then ssHostPort decoded else none

/-- Return type of `validate_config`: `(is_valid, error_msg, host, port)`.
`host`/`port` are Python values (`jnull` for `None`). -/
abbrev ValidateResult := Bool × Option PyStr × JVal × JVal

/-- `ServerValidator.validate_config`. -/
def validate_config (config : PyStr) : ValidateResult :=
  let c := pyStrip config
  if pyStartsWith (pys "vmess://") c then
    match extract_vmess_info c with
    | some (h, p) => (true, none, h, .jint p)
    | none => (false, some (pys "Invalid vmess format"), .jnull, .jnull)
  else if pyStartsWith (pys "vless://") c then
    match extract_vless_info c with
    | some (h, p) => (true, none, .jstr h, .jint p)
    | none => (false, some (pys "Invalid vless format"), .jnull, .jnull)
  else if pyStartsWith (pys "trojan://") c then
    match extract_trojan_info c with
    | some (h, p) => (true, none, .jstr h, .jint p)
    | none => (false, some (pys "Invalid trojan format"), .jnull, .jnull)
  else if pyStartsWith (pys "ss://") c then
    match extract_ss_info c with
    | some (h, p) => (true, none, .jstr h, .jint p)
    | none => (false, some (pys "Invalid shadowsocks format"), .jnull, .jnull)
  else if pyStartsWith (pys "ssr://") c then
    (true, none, .jnull, .jnull)
  else
    (false, some (pys "Unknown protocol"), .jnull, .jnull)

/-- Outcome of one TCP connect attempt (the network oracle):
a successful connect with measured latency, a timeout, or any other
connection error with its message. -/
inductive ProbeOutcome where
  | success (latency : ℚ)
  | timeout
  | connectError (msg : PyStr)

/-- The network, as an oracle from `(host, port)` to an outcome. -/
abbrev Prober := JVal → JVal → ProbeOutcome

/-- `HealthChecker.check_tcp_connectivity`, parameterised by the network
oracle: `(is_reachable, latency_ms, error_msg)`. -/
def check_tcp_connectivity (probe : Prober) (host port : JVal) :
    Bool × Option ℚ × Option PyStr :=
  if ¬ (jTruthy host ∧ jTruthy port) then
    (false, none, some (pys "Missing host or port"))
  else
    match probe host port with
    | .success l => (true, some l, none)
    | .timeout => (false, none, some (pys "Connection timeout"))
    | .connectError m => (false, none, some (pys "Connection failed: " ++ m))

/-- `HealthChecker.check_server_health`, parameterised by the network
oracle. -/
def check_server_health (probe : Prober) (config protocol : PyStr) : ServerHealth :=
  match validate_config config with
  | (is_valid, validation_error, host, port) =>
    if ¬ is_valid then
      { config := config, protocol := protocol, status := .invalid,
        validation_error := validation_error }
    else if jTruthy host ∧ jTruthy port then
      match check_tcp_connectivity probe host port with
      | (true, latency, _) =>
        -- a reachable result always carries a latency; `getD` is never hit
        let l := latency.getD 0
        { config := config, protocol := protocol,
          status := if l < 500 then .healthy else .degraded,
          latency_ms := latency, host := host, port := port }
      | (false, _, err) =>
        { config := config, protocol := protocol, status := .unreachable,
          error := err, host := host, port := port }
    else
      { config := config, protocol := protocol, status := .healthy,
        host := host, port := port }

/-- One gathered task result in `check_servers_batch`: a `ServerHealth`
or a raised exception (its message). -/
abbrev TaskOutcome := ServerHealth ⊕ PyStr

/-- `HealthChecker.check_servers_batch`, parameterised by the outcome
of each item's task.  `asyncio.gather(..., return_exceptions=True)`
yields one outcome per item, in input order; the loop keeps the
`ServerHealth` values and drops the exceptions. -/
def check_servers_batch (outcome : PyStr × PyStr → TaskOutcome)
    (servers : List (PyStr × PyStr)) : List ServerHealth :=
  let results := servers.map outcome
  results.foldl
    (fun acc r => match r with
      | Sum.inl h => acc ++ [h]
      | Sum.inr _ => acc) []

/-- `filter_healthy_servers` (the `for`/`continue`/`append` loop of the
source, as a fold). -/
def filter_healthy_servers (health_results : List ServerHealth)
    (min_quality_score : ℚ) (exclude_unreachable : Bool) : List ServerHealth :=
  match health_results with
  | [] => []
  | result :: rest =>
    let tail := filter_healthy_servers rest min_quality_score exclude_unreachable
    if result.status = HealthStatus.invalid then tail
    else if exclude_unreachable ∧ result.status = HealthStatus.unreachable then tail
    else if quality_score result ≥ min_quality_score then result :: tail
    else tail

/-- The comparison `sorted(..., key=lambda x: x.quality_score, reverse=descending)`
sorts by: `a` before `b` when `descending` and `score a ≥ score b`. -/
def qualityGE (a b : ServerHealth) : Prop := quality_score b ≤ quality_score a

instance : DecidableRel qualityGE := fun a b => by
  unfold qualityGE; infer_instance

instance : IsTotal ServerHealth qualityGE :=
  ⟨fun a b => le_total (quality_score b) (quality_score a)⟩

instance : IsTrans ServerHealth qualityGE :=
  ⟨fun _ _ _ h1 h2 => le_trans h2 h1⟩

def qualityLE (a b : ServerHealth) : Prop := quality_score a ≤ quality_score b

instance : DecidableRel qualityLE := fun a b => by
  unfold qualityLE; infer_instance

/-- `sort_by_quality`: Python's stable `sorted` by quality score
(descending when `descending`), modelled as insertion sort (same
multiset, same ordering contract). -/
def sort_by_quality (health_results : List ServerHealth)
    (descending : Bool := true) : List ServerHealth :=
  if descending then List.insertionSort qualityGE health_results
  else List.insertionSort qualityLE health_results

/-! ### `core.py` — `get_servers_with_health` (batched pipeline) -/

/-- `server_tuples[i : i + batch_size]` chunking
(`range(0, len, batch_size)`), with fuel (sufficient for `bs ≥ 1`). -/
def chunkAux (bs : Nat) : Nat → List α → List (List α)
  | 0, _ => []
  | _ + 1, [] => []
  | f + 1, l => l.take bs :: chunkAux bs f (l.drop bs)

def chunkList (bs : Nat) (l : List α) : List (List α) := chunkAux bs l.length l

/-- Observable behaviour of one `checker.check_servers(batch)` call:
the results it would return, whether it sets the stop token while
running, and whether it raises `KeyboardInterrupt` (in which case no
results are returned). -/
structure BatchEff where
  results : List ServerHealth
  setsToken : Bool := false
  raisesKI : Bool := false

/-- The `for i in range(...)` / `try ... except KeyboardInterrupt` loop
of `get_servers_with_health`, parameterised by the behaviour `eff` of
each batch (indexed from 0).  State is the stop token; returns the
accumulated `health_results` and the final token. -/
def healthLoop (eff : Nat → List (PyStr × PyStr) → BatchEff) :
    List (List (PyStr × PyStr)) → Nat → Bool → List ServerHealth × Bool
  | [], _, tok => ([], tok)
  | c :: cs, k, tok =>
    if tok then ([], tok)
    else
      let e := eff k c
      if e.raisesKI then
        -- `except KeyboardInterrupt: self.request_stop()` — loop abandoned
        ([], true)
      else
        let r := healthLoop eff cs (k + 1) (tok || e.setsToken)
        (e.results ++ r.1, r.2)

/-- The dict built per record in the final conversion loop. -/
structure HealthDict where
  config : PyStr
  protocol : PyStr
  health_checked : Bool
  health_status : Option PyStr := none
  latency_ms : Option ℚ := none
  quality_score : Option ℚ := none
  host : JVal := .jnull
  port : JVal := .jnull
  error : Option PyStr := none
  validation_error : Option PyStr := none

/-- Conversion of one `ServerHealth` to its result dict. -/
def toDict (h : ServerHealth) : HealthDict :=
  { config := h.config, protocol := h.protocol, health_checked := true,
    health_status := some (statusValue h.status), latency_ms := h.latency_ms,
    quality_score := some (quality_score h), host := h.host, port := h.port,
    error := h.error, validation_error := h.validation_error }

/-- Filtering, sorting and dict conversion at the end of
`get_servers_with_health` (`filter_healthy_servers` is invoked only when
`filter_unhealthy or min_quality_score > 0`). -/
def healthPost (health_results : List ServerHealth)
    (filter_unhealthy : Bool) (min_quality_score : ℚ) : List HealthDict :=
  let hr :=
    if filter_unhealthy || decide (min_quality_score > 0) then
      filter_healthy_servers health_results min_quality_score filter_unhealthy
    else health_results
  (sort_by_quality hr true).map toDict

/-- The health-checking part of `get_servers_with_health`, from the
prepared `server_tuples` on: batched checking with the stop token
checked before every batch, then filtering/sorting/conversion of
whatever accumulated.  Returns the result list and the final token. -/
def get_servers_with_health_run (eff : Nat → List (PyStr × PyStr) → BatchEff)
    (server_tuples : List (PyStr × PyStr)) (health_batch_size : Nat)
    (filter_unhealthy : Bool) (min_quality_score : ℚ) (tok0 : Bool) :
    List HealthDict × Bool :=
  let r := healthLoop eff (chunkList health_batch_size server_tuples) 0 tok0
  (healthPost r.1 filter_unhealthy min_quality_score, r.2)

/-! ### Lemmas about the string primitives -/

theorem pySplitChar_single (sep : Char) (s : PyStr)
    (h : pyContains sep s = false) : pySplitChar sep s = [s] := by
  induction s with
  | nil => rfl
  | cons x xs ih =>
    simp only [pyContains, List.any_cons, Bool.or_eq_false_iff] at h
    have hx : ¬ x = sep := by simpa using h.1
    have hxs := ih (by simpa [pyContains] using h.2)
    simp [pySplitChar, hx, hxs]

theorem pySplitChar_cons_of_contains (sep : Char) (s : PyStr)
    (h : pyContains sep s = true) :
    pySplitChar sep s =
      s.takeWhile (· ≠ sep) :: pySplitChar sep ((s.dropWhile (· ≠ sep)).drop 1) := by
  induction s with
  | nil => simp [pyContains] at h
  | cons x xs ih =>
    by_cases hx : x = sep
    · subst hx
      simp [pySplitChar, List.takeWhile, List.dropWhile]
    · have hxs : pyContains sep xs = true := by
        simpa [pyContains, hx] using h
      have := ih hxs
      simp only [pySplitChar, this]
      simp [hx, List.takeWhile, List.dropWhile]

theorem pySplitChar_headD (sep : Char) (s : PyStr) :
    (pySplitChar sep s).headD [] = s.takeWhile (· ≠ sep) := by
  by_cases h : pyContains sep s
  · rw [pySplitChar_cons_of_contains sep s h]; rfl
  · rw [pySplitChar_single sep s (by simpa using h)]
    show s = s.takeWhile (· ≠ sep)
    have : s.takeWhile (· ≠ sep) = s := by
      rw [List.takeWhile_eq_self_iff]
      intro a ha
      by_contra hcon
      simp only [pyContains, List.any_eq_true] at h
      exact h ⟨a, ha, by simpa using hcon⟩
    exact this.symm

theorem dropWhile_append_keeps (f : α → Bool) (a : List α) (x : α) (xs : List α)
    (hx : f x = false) :
    ∃ a', List.dropWhile f (a ++ x :: xs) = a' ++ x :: xs := by
  induction a with
  | nil => exact ⟨[], by simp [List.dropWhile, hx]⟩
  | cons y ys ih =>
    by_cases hy : f y
    · obtain ⟨a', ha'⟩ := ih
      exact ⟨a', by simpa [List.dropWhile, hy] using ha'⟩
    · exact ⟨y :: ys, by simp [List.dropWhile, hy]⟩

/-- Stripping whitespace preserves a prefix whose first and last
characters are not whitespace (`validate_config` strips before its
prefix dispatch, which cannot destroy a scheme prefix). -/
theorem pyStrip_keeps (x : Char) (mid : PyStr) (y : Char) (r : PyStr)
    (hx : pyIsSpace x = false) (hy : pyIsSpace y = false) :
    ∃ r', pyStrip ((x :: mid ++ [y]) ++ r) = (x :: mid ++ [y]) ++ r' := by
  unfold pyStrip
  have h1 : List.dropWhile pyIsSpace ((x :: mid ++ [y]) ++ r)
      = (x :: mid ++ [y]) ++ r := by
    simp [List.dropWhile, hx]
  rw [h1]
  have h2 : ((x :: mid ++ [y]) ++ r).reverse = r.reverse ++ y :: (mid.reverse ++ [x]) := by
    simp
  rw [h2]
  obtain ⟨a', ha'⟩ := dropWhile_append_keeps pyIsSpace r.reverse y (mid.reverse ++ [x]) hy
  rw [ha']
  exact ⟨a'.reverse, by simp⟩

/-! ### Spec-worded descriptions of the extraction algorithms

These are written from the (amended) spec sentences, with different
plumbing than the source embedding (`takeWhile`/`dropWhile` substring
operations instead of `split` indexing); the claim theorems prove them
equal to the source functions. -/

/-- The segment between the first and the second occurrence of `sep`
(everything after the first occurrence when it is the only one).  This
is what Python's `s.split(sep)[1]` denotes when `sep ∈ s`. -/
def betweenFirstTwo (sep : Char) (s : PyStr) : PyStr :=
  ((s.dropWhile (· ≠ sep)).drop 1).takeWhile (· ≠ sep)

/-- Spec-worded vless/trojan extraction (amended): require an `@`;
take the segment between the first two `@`s; discard everything from
the first `?` on; the remainder must consist of a host and a port
separated by a single `:`; the port must parse as an integer. -/
def specVlessCore (c : PyStr) : Option (PyStr × Int) :=
  if pyContains '@' c then
    let seg := betweenFirstTwo '@' c
    let beforeQ := seg.takeWhile (· ≠ '?')
    if pyContains ':' beforeQ then
      let h := beforeQ.takeWhile (· ≠ ':')
      let pr := (beforeQ.dropWhile (· ≠ ':')).drop 1
      if pyContains ':' pr then none
      else (pyIntOfStr pr).map (fun n => (h, n))
    else none
  else none

/-- Spec-worded host/port extraction of the ss scheme (amended), applied
to the remainder or to its base64 decoding: the segment between the
first two `@`s, split at `:`, first two components as host and port. -/
def specSsHp (t : PyStr) : Option (PyStr × Int) :=
  let p1 := betweenFirstTwo '@' t
  if pyContains ':' p1 then
    (pyIntOfStr (betweenFirstTwo ':' p1)).map (fun n => (p1.takeWhile (· ≠ ':'), n))
  else none

/-- Spec-worded ss extraction (amended): with an `@`, extract host/port
from the remainder; with no `@`, base64-decode the whole remainder and,
if the decoded text contains `@`, extract host/port from it. -/
def specSsCore (c : PyStr) : Option (PyStr × Int) :=
  if pyContains '@' c then specSsHp c
  else
    match pyB64Decode c with
    | none => none
    | some bytes =>
      match utf8Decode bytes with
      | none => none
      | some decoded => if pyContains '@' decoded then specSsHp decoded else none

/-- Spec-worded vmess extraction (amended): remove every occurrence of
the scheme, pad with `=` by `4 - len % 4` unless that remainder is 0,
base64-decode, parse UTF-8 JSON; host is the first truthy of the `add`
and `address` fields, port is the integer parse of the `port` field
defaulting to 0 when missing. -/
def specVmessCore (c : PyStr) : Option (JVal × Int) :=
  let encoded := pyReplace (pys "vmess://") [] c
  let rem := encoded.length % 4
  let padded := if rem = 0 then encoded else encoded ++ List.replicate (4 - rem) '='
  (pyB64Decode padded).bind fun bytes =>
  (utf8Decode bytes).bind fun decoded =>
  (jsonLoads decoded).bind fun data =>
  match data with
  | .jobj kvs =>
    let add := (jGet kvs (pys "add")).getD .jnull
    let addr := (jGet kvs (pys "address")).getD .jnull
    let host := if jTruthy add then add else addr
    (pyIntOfJVal ((jGet kvs (pys "port")).getD (.jint 0))).map (fun p => (host, p))
  | _ => none

theorem vlessCore_eq_spec (c : PyStr) : vlessCore c = specVlessCore c := by
  unfold vlessCore specVlessCore
  by_cases hat : pyContains '@' c
  · simp only [hat, Bool.true_eq_false, if_true, if_false, not_true, ite_not]
    rw [pySplitChar_cons_of_contains '@' c hat]
    cases h2 : pySplitChar '@' ((c.dropWhile (· ≠ '@')).drop 1) with
    | nil => exact absurd h2 (pySplitChar_ne_nil _ _)
    | cons hd tl =>
      have hhd : hd = betweenFirstTwo '@' c := by
        have h3 := pySplitChar_headD '@' ((c.dropWhile (· ≠ '@')).drop 1)
        rw [h2] at h3
        simpa [betweenFirstTwo] using h3
      subst hhd
      show (match pySplitChar ':'
              ((pySplitChar '?' (betweenFirstTwo '@' c)).headD []) with
            | [h, pr] => (pyIntOfStr pr).map (fun n => (h, n))
            | _ => none) = _
      rw [pySplitChar_headD '?' (betweenFirstTwo '@' c)]
      set p := (betweenFirstTwo '@' c).takeWhile (· ≠ '?') with hp
      by_cases hc : pyContains ':' p
      · rw [pySplitChar_cons_of_contains ':' p hc]
        by_cases hc2 : pyContains ':' ((p.dropWhile (· ≠ ':')).drop 1)
        · rw [pySplitChar_cons_of_contains ':' _ hc2]
          cases h4 : pySplitChar ':'
              ((((p.dropWhile (· ≠ ':')).drop 1).dropWhile (· ≠ ':')).drop 1) with
          | nil => exact absurd h4 (pySplitChar_ne_nil _ _)
          | cons hd3 tl3 =>
            have hc2' : pyContains ':'
                (List.dropWhile (fun x => !decide (x = ':')) p).tail = true := by
              simpa using hc2
            simp [hc, hc2']
        · rw [pySplitChar_single ':' _ (by simpa using hc2)]
          have hc2' : ¬ pyContains ':'
              (List.dropWhile (fun x => !decide (x = ':')) p).tail = true := by
            simpa using hc2
          simp [hc, hc2']
      · rw [pySplitChar_single ':' p (by simpa using hc)]
        simp [hc]
  · simp [hat]

/-- `split(":")[:2]` with the exactly-two check and the integer parse
(from `extract_ss_info`) equals the spec-worded single-`:`-segment
extraction of `specSsHp`. -/
theorem ssTake2_eq (p1 : PyStr) :
    (match (pySplitChar ':' p1).take 2 with
     | [h', pr] => (pyIntOfStr pr).map (fun n => (h', n))
     | _ => none)
    = (if pyContains ':' p1 then
        (pyIntOfStr (betweenFirstTwo ':' p1)).map (fun n => (p1.takeWhile (· ≠ ':'), n))
       else none) := by
  by_cases hc : pyContains ':' p1
  · rw [pySplitChar_cons_of_contains ':' p1 hc]
    cases h4 : pySplitChar ':' ((p1.dropWhile (· ≠ ':')).drop 1) with
    | nil => exact absurd h4 (pySplitChar_ne_nil _ _)
    | cons hd2 tl2 =>
      have hhd2 : hd2 = betweenFirstTwo ':' p1 := by
        have h5 := pySplitChar_headD ':' ((p1.dropWhile (· ≠ ':')).drop 1)
        rw [h4] at h5
        simpa [betweenFirstTwo] using h5
      subst hhd2
      simp [hc]
  · rw [pySplitChar_single ':' p1 (by simpa using hc)]
    simp [hc]

/-- The shared host/port tail of `extract_ss_info` equals the
spec-worded `specSsHp` whenever the string contains an `@`. -/
theorem ssHostPort_eq (t : PyStr) (h : pyContains '@' t = true) :
    ssHostPort t = specSsHp t := by
  unfold ssHostPort
  rw [pySplitChar_cons_of_contains '@' t h]
  cases h2 : pySplitChar '@' ((t.dropWhile (· ≠ '@')).drop 1) with
  | nil => exact absurd h2 (pySplitChar_ne_nil _ _)
  | cons hd tl =>
    have hhd : hd = betweenFirstTwo '@' t := by
      have h3 := pySplitChar_headD '@' ((t.dropWhile (· ≠ '@')).drop 1)
      rw [h2] at h3
      simpa [betweenFirstTwo] using h3
    subst hhd
    show (match (pySplitChar ':' (betweenFirstTwo '@' t)).take 2 with
          | [h', pr] => (pyIntOfStr pr).map (fun n => (h', n))
          | _ => none) = specSsHp t
    rw [ssTake2_eq]
    rfl

/-- `extract_ss_info` equals the spec-worded (amended) description. -/
theorem extract_ss_info_eq_spec (config : PyStr) :
    extract_ss_info config = specSsCore (pyReplace (pys "ss://") [] config) := by
  unfold extract_ss_info specSsCore
  set c := pyReplace (pys "ss://") [] config with hc
  by_cases hat : pyContains '@' c
  · simp only [hat, if_true]
    exact ssHostPort_eq c hat
  · simp only [hat, if_false, Bool.false_eq_true]
    cases hb : pyB64Decode c with
    | none => rfl
    | some bytes =>
      show (match utf8Decode bytes with
            | none => none
            | some decoded =>
              if pyContains '@' decoded = true then ssHostPort decoded else none)
          = (match utf8Decode bytes with
            | none => none
            | some decoded =>
              if pyContains '@' decoded = true then specSsHp decoded else none)
      cases hu : utf8Decode bytes with
      | none => rfl
      | some decoded =>
        show (if pyContains '@' decoded = true then ssHostPort decoded else none)
            = (if pyContains '@' decoded = true then specSsHp decoded else none)
        by_cases hdec : pyContains '@' decoded
        · simp [hdec, ssHostPort_eq decoded hdec]
        · simp [hdec]

/-- `extract_vmess_info` equals the spec-worded (amended) description. -/
theorem extract_vmess_info_eq_spec (c : PyStr) :
    extract_vmess_info c = specVmessCore c := by
  unfold extract_vmess_info specVmessCore
  dsimp only []
  set enc := pyReplace (pys "vmess://") [] c with henc
  have hpadeq :
      (if 4 - enc.length % 4 ≠ 4 then enc ++ List.replicate (4 - enc.length % 4) '=' else enc)
      = (if enc.length % 4 = 0 then enc else enc ++ List.replicate (4 - enc.length % 4) '=') := by
    by_cases h : enc.length % 4 = 0
    · have h4 : 4 - enc.length % 4 = 4 := by omega
      simp [h, h4]
    · have h4 : 4 - enc.length % 4 ≠ 4 := by
        have := Nat.mod_lt enc.length (show 0 < 4 by omega)
        omega
      simp [h, h4]
  rw [hpadeq]
  generalize (if enc.length % 4 = 0 then enc
              else enc ++ List.replicate (4 - enc.length % 4) '=') = padded
  cases hb : pyB64Decode padded with
  | none => rfl
  | some bytes =>
    show (match utf8Decode bytes with
          | none => none
          | some decoded =>
            match jsonLoads decoded with
            | some (.jobj kvs) =>
              let host := pyOrVal ((jGet kvs (pys "add")).getD .jnull)
                                  ((jGet kvs (pys "address")).getD .jnull)
              match pyIntOfJVal ((jGet kvs (pys "port")).getD (.jint 0)) with
              | some p => some (host, p)
              | none => none
            | _ => none)
        = ((utf8Decode bytes).bind fun decoded =>
            (jsonLoads decoded).bind fun data =>
            match data with
            | .jobj kvs =>
              let add := (jGet kvs (pys "add")).getD .jnull
              let addr := (jGet kvs (pys "address")).getD .jnull
              let host := if jTruthy add then add else addr
              (pyIntOfJVal ((jGet kvs (pys "port")).getD (.jint 0))).map (fun p => (host, p))
            | _ => none)
    cases hu : utf8Decode bytes with
    | none => rfl
    | some decoded =>
      show (match jsonLoads decoded with
            | some (.jobj kvs) =>
              let host := pyOrVal ((jGet kvs (pys "add")).getD .jnull)
                                  ((jGet kvs (pys "address")).getD .jnull)
              match pyIntOfJVal ((jGet kvs (pys "port")).getD (.jint 0)) with
              | some p => some (host, p)
              | none => none
            | _ => none)
          = ((jsonLoads decoded).bind fun data =>
              match data with
              | .jobj kvs =>
                let add := (jGet kvs (pys "add")).getD .jnull
                let addr := (jGet kvs (pys "address")).getD .jnull
                let host := if jTruthy add then add else addr
                (pyIntOfJVal ((jGet kvs (pys "port")).getD (.jint 0))).map (fun p => (host, p))
              | _ => none)
      cases hj : jsonLoads decoded with
      | none => rfl
      | some data =>
        cases data with
        | jobj kvs =>
          show (match pyIntOfJVal ((jGet kvs (pys "port")).getD (.jint 0)) with
                | some p => some (pyOrVal ((jGet kvs (pys "add")).getD .jnull)
                                          ((jGet kvs (pys "address")).getD .jnull), p)
                | none => none)
              = (pyIntOfJVal ((jGet kvs (pys "port")).getD (.jint 0))).map
                  (fun p => (if jTruthy ((jGet kvs (pys "add")).getD .jnull)
                             then (jGet kvs (pys "add")).getD .jnull
                             else (jGet kvs (pys "address")).getD .jnull, p))
          cases pyIntOfJVal ((jGet kvs (pys "port")).getD (.jint 0)) with
          | none => rfl
          | some p => rfl
        | jnull => rfl
        | jbool b => rfl
        | jint n => rfl
        | jnum q => rfl
        | jstr s => rfl
        | jarr xs => rfl

/-! ### Claim-literal algorithms (used only to exhibit counterexamples) -/

/-- Claim C7's literal algorithm: strip the prefix (once) and take the
substring after the **first** `@` (where the source takes
`split("@")[1]`, the segment between the first two `@`s). -/
def claimVlessValidate (s : PyStr) : ValidateResult :=
  if pyStartsWith (pys "vless://") s then
    let c := s.drop (pys "vless://").length
    if pyContains '@' c then
      let afterAt := (c.dropWhile (· ≠ '@')).drop 1
      let beforeQ := afterAt.takeWhile (· ≠ '?')
      let pr := (beforeQ.dropWhile (· ≠ ':')).drop 1
      if pyContains ':' beforeQ ∧ ¬ pyContains ':' pr then
        match pyIntOfStr pr with
        | some n => (true, none, .jstr (beforeQ.takeWhile (· ≠ ':')), .jint n)
        | none => (false, some (pys "Invalid vless format"), .jnull, .jnull)
      else (false, some (pys "Invalid vless format"), .jnull, .jnull)
    else (false, some (pys "Invalid vless format"), .jnull, .jnull)
  else (false, some (pys "Unknown protocol"), .jnull, .jnull)

/-- Claim C8's literal algorithm: strip the prefix (once); with an `@`,
take the substring after the **first** `@`, split it on `:` and take
the first two components as host and port. -/
def claimSsValidate (s : PyStr) : ValidateResult :=
  if pyStartsWith (pys "ss://") s then
    let c := s.drop (pys "ss://").length
    if pyContains '@' c then
      let afterAt := (c.dropWhile (· ≠ '@')).drop 1
      if pyContains ':' afterAt then
        match pyIntOfStr (betweenFirstTwo ':' afterAt) with
        | some n => (true, none, .jstr (afterAt.takeWhile (· ≠ ':')), .jint n)
        | none => (false, some (pys "Invalid shadowsocks format"), .jnull, .jnull)
      else (false, some (pys "Invalid shadowsocks format"), .jnull, .jnull)
    else
      -- base64 branch, not at issue in the counterexample
      (false, some (pys "Invalid shadowsocks format"), .jnull, .jnull)
  else (false, some (pys "Unknown protocol"), .jnull, .jnull)

/-- Claim C6's literal host selection: field `add`, falling back to
field `address` only when `add` is **absent** (where the source uses
Python `or`, which also falls back when `add` is present but falsy). -/
def claimVmessHost (kvs : List (PyStr × JVal)) : JVal :=
  match jGet kvs (pys "add") with
  | some v => v
  | none => (jGet kvs (pys "address")).getD .jnull

/-! ### Scheme-prefix dispatch facts (all definitional) -/

theorem sw_vmess_self (r : PyStr) :
    pyStartsWith (pys "vmess://") (pys "vmess://" ++ r) = true := rfl
theorem sw_vless_self (r : PyStr) :
    pyStartsWith (pys "vless://") (pys "vless://" ++ r) = true := rfl
theorem sw_trojan_self (r : PyStr) :
    pyStartsWith (pys "trojan://") (pys "trojan://" ++ r) = true := rfl
theorem sw_ss_self (r : PyStr) :
    pyStartsWith (pys "ss://") (pys "ss://" ++ r) = true := rfl
theorem sw_ssr_self (r : PyStr) :
    pyStartsWith (pys "ssr://") (pys "ssr://" ++ r) = true := rfl

theorem sw_vmess_vless (r : PyStr) :
    pyStartsWith (pys "vmess://") (pys "vless://" ++ r) = false := rfl
theorem sw_vmess_trojan (r : PyStr) :
    pyStartsWith (pys "vmess://") (pys "trojan://" ++ r) = false := rfl
theorem sw_vless_trojan (r : PyStr) :
    pyStartsWith (pys "vless://") (pys "trojan://" ++ r) = false := rfl
theorem sw_vmess_ss (r : PyStr) :
    pyStartsWith (pys "vmess://") (pys "ss://" ++ r) = false := rfl
theorem sw_vless_ss (r : PyStr) :
    pyStartsWith (pys "vless://") (pys "ss://" ++ r) = false := rfl
theorem sw_trojan_ss (r : PyStr) :
    pyStartsWith (pys "trojan://") (pys "ss://" ++ r) = false := rfl
theorem sw_vmess_ssr (r : PyStr) :
    pyStartsWith (pys "vmess://") (pys "ssr://" ++ r) = false := rfl
theorem sw_vless_ssr (r : PyStr) :
    pyStartsWith (pys "vless://") (pys "ssr://" ++ r) = false := rfl
theorem sw_trojan_ssr (r : PyStr) :
    pyStartsWith (pys "trojan://") (pys "ssr://" ++ r) = false := rfl
theorem sw_ss_ssr (r : PyStr) :
    pyStartsWith (pys "ss://") (pys "ssr://" ++ r) = false := rfl

/-! ### Claim theorems -/

/-- **C3.** For every `ServerHealth` record, `quality_score` equals the
piecewise reference function of the spec: `Invalid ⇒ 0`,
`Unreachable ⇒ 10`, otherwise `None ⇒ 50`, `l < 100 ⇒ 100`,
`100 ≤ l < 300 ⇒ 100 - (l - 100)·0.2`, `l ≥ 300 ⇒ max 30 (100 - l·0.15)`;
consequently `score(Healthy, 200) = 80`, `score(Healthy, 1000) = 30`,
and the score always lies in `[0, 100]`. -/
theorem C3_quality_score_spec (h : ServerHealth) :
    (h.status = .invalid → quality_score h = 0) ∧
    (h.status = .unreachable → quality_score h = 10) ∧
    (h.status ≠ .invalid → h.status ≠ .unreachable → h.latency_ms = none →
        quality_score h = 50) ∧
    (∀ l : ℚ, h.status ≠ .invalid → h.status ≠ .unreachable → h.latency_ms = some l →
        (l < 100 → quality_score h = 100) ∧
        (100 ≤ l → l < 300 → quality_score h = 100 - (l - 100) * 0.2) ∧
        (300 ≤ l → quality_score h = max 30 (100 - l * 0.15))) ∧
    quality_score { config := [], protocol := [], status := .healthy,
                    latency_ms := some 200 } = 80 ∧
    quality_score { config := [], protocol := [], status := .healthy,
                    latency_ms := some 1000 } = 30 ∧
    0 ≤ quality_score h ∧ quality_score h ≤ 100 := by
  obtain ⟨c, pr, st, lat, e, ho, po, ve⟩ := h
  refine ⟨?_, ?_, ?_, ?_, by simp [quality_score]; norm_num,
    by simp [quality_score]; norm_num, ?_, ?_⟩
  · intro hst
    replace hst : st = HealthStatus.invalid := hst
    subst hst
    simp [quality_score]
  · intro hst
    replace hst : st = HealthStatus.unreachable := hst
    subst hst
    simp [quality_score]
  · intro h1 h2 h3
    replace h1 : st ≠ HealthStatus.invalid := h1
    replace h2 : st ≠ HealthStatus.unreachable := h2
    replace h3 : lat = none := h3
    subst h3
    simp [quality_score, h1, h2]
  · intro l h1 h2 h3
    replace h1 : st ≠ HealthStatus.invalid := h1
    replace h2 : st ≠ HealthStatus.unreachable := h2
    replace h3 : lat = some l := h3
    subst h3
    have key : quality_score (ServerHealth.mk c pr st (some l) e ho po ve)
        = (if l < 100 then 100 else if l < 300 then 100 - ((l - 100) * 0.2)
           else max 30 (100 - (l * 0.15))) := by
      simp [quality_score, h1, h2]
    refine ⟨?_, ?_, ?_⟩
    · intro hl; rw [key, if_pos hl]
    · intro hl1 hl2
      rw [key, if_neg (by linarith), if_pos hl2]
    · intro hl
      rw [key, if_neg (by linarith), if_neg (by linarith)]
  · -- 0 ≤ quality_score
    simp only [quality_score]
    split_ifs with hi hu
    · norm_num
    · norm_num
    · cases lat with
      | none => norm_num
      | some l =>
        simp only
        split_ifs with hl1 hl2
        · norm_num
        · nlinarith
        · exact le_trans (by norm_num) (le_max_left 30 (100 - l * 0.15))
  · -- quality_score ≤ 100
    simp only [quality_score]
    split_ifs with hi hu
    · norm_num
    · norm_num
    · cases lat with
      | none => norm_num
      | some l =>
        simp only
        split_ifs with hl1 hl2
        · norm_num
        · nlinarith
        · have h300 : (300 : ℚ) ≤ l := by linarith
          exact max_le (by norm_num) (by nlinarith)

theorem C3_witness :
    quality_score (ServerHealth.mk [] [] .unreachable none none .jnull .jnull none)
      = 10 ∧
    quality_score (ServerHealth.mk [] [] .healthy (some 200) none .jnull .jnull none)
      = 100 - (200 - 100) * 0.2 := by
  constructor
  · exact (C3_quality_score_spec _).2.1 rfl
  · exact ((C3_quality_score_spec
      (ServerHealth.mk [] [] .healthy (some 200) none .jnull .jnull none)).2.2.2.1
      200 (by decide) (by decide) rfl).2.1 (by norm_num) (by norm_num)

/-- **C10.** `check_servers_batch` returns exactly one record per item
whose task produced a `ServerHealth`, in gather order, and silently
drops every item whose task raised (no exception propagates: the
function is total and its value is exactly the filtered list). -/
theorem C10_check_servers_batch_spec (outcome : PyStr × PyStr → TaskOutcome)
    (servers : List (PyStr × PyStr)) :
    check_servers_batch outcome servers
      = servers.filterMap (fun it =>
          match outcome it with
          | Sum.inl h => some h
          | Sum.inr _ => none) ∧
    (check_servers_batch outcome servers).length
      = (servers.filter (fun it =>
          match outcome it with
          | Sum.inl _ => true
          | Sum.inr _ => false)).length := by
  have key : ∀ (rs : List TaskOutcome) (acc : List ServerHealth),
      rs.foldl (fun acc r => match r with
        | Sum.inl h => acc ++ [h]
        | Sum.inr _ => acc) acc
      = acc ++ rs.filterMap (fun r => match r with
          | Sum.inl h => some h
          | Sum.inr _ => none) := by
    intro rs
    induction rs with
    | nil => intro acc; simp
    | cons r rt ih =>
      intro acc
      cases r with
      | inl h => simp [List.filterMap_cons, ih]
      | inr e => simp [List.filterMap_cons, ih]
  have main : check_servers_batch outcome servers
      = servers.filterMap (fun it =>
          match outcome it with
          | Sum.inl h => some h
          | Sum.inr _ => none) := by
    unfold check_servers_batch
    rw [key]
    simp only [List.nil_append]
    rw [List.filterMap_map]
    rfl
  refine ⟨main, ?_⟩
  rw [main]
  clear main key
  induction servers with
  | nil => rfl
  | cons it rest ih =>
    cases ho : outcome it with
    | inl h => simp [List.filterMap_cons, List.filter_cons, ho, ih]
    | inr e => simp [List.filterMap_cons, List.filter_cons, ho, ih]

/-- Unfolding of `check_server_health` along a known validation result. -/
theorem check_server_health_eq (probe : Prober) (config protocol : PyStr)
    (b : Bool) (verr : Option PyStr) (vh vp : JVal)
    (hv : validate_config config = (b, verr, vh, vp)) :
    check_server_health probe config protocol =
      if ¬ b then ServerHealth.mk config protocol .invalid none none .jnull .jnull verr
      else if jTruthy vh ∧ jTruthy vp then
        match check_tcp_connectivity probe vh vp with
        | (true, latency, _) =>
          ServerHealth.mk config protocol
            (if latency.getD 0 < 500 then .healthy else .degraded) latency none vh vp none
        | (false, _, err) =>
          ServerHealth.mk config protocol .unreachable none err vh vp none
      else ServerHealth.mk config protocol .healthy none none vh vp none := by
  unfold check_server_health
  rw [hv]

/-- **C4.** `check_server_health`: a config failing validation yields an
`Invalid` record and the probe oracle is never consulted; a valid config
with a truthy target classifies a successful probe as `Healthy` iff
`latency < 500` (else `Degraded`) and any failed probe as `Unreachable`;
a valid config with no extracted target (host and port `None`, e.g. ssr)
yields a `Healthy` record with no latency, again without consulting the
probe. -/
theorem C4_check_server_health_spec (probe : Prober) (config protocol : PyStr) :
    ((validate_config config).1 = false →
        (check_server_health probe config protocol).status = .invalid ∧
        (check_server_health probe config protocol).validation_error
          = (validate_config config).2.1 ∧
        (check_server_health probe config protocol).latency_ms = none ∧
        ∀ probe' : Prober,
          check_server_health probe' config protocol
            = check_server_health probe config protocol) ∧
    ((validate_config config).1 = true →
      jTruthy (validate_config config).2.2.1 = true →
      jTruthy (validate_config config).2.2.2 = true →
        (∀ l : ℚ,
          probe (validate_config config).2.2.1 (validate_config config).2.2.2
              = .success l →
            (check_server_health probe config protocol).status
              = (if l < 500 then HealthStatus.healthy else HealthStatus.degraded) ∧
            (check_server_health probe config protocol).latency_ms = some l) ∧
        (probe (validate_config config).2.2.1 (validate_config config).2.2.2
            = .timeout →
          (check_server_health probe config protocol).status = .unreachable ∧
          (check_server_health probe config protocol).error
            = some (pys "Connection timeout")) ∧
        (∀ m : PyStr,
          probe (validate_config config).2.2.1 (validate_config config).2.2.2
              = .connectError m →
            (check_server_health probe config protocol).status = .unreachable)) ∧
    ((validate_config config).1 = true →
      (validate_config config).2.2.1 = .jnull →
      (validate_config config).2.2.2 = .jnull →
        (check_server_health probe config protocol).status = .healthy ∧
        (check_server_health probe config protocol).latency_ms = none ∧
        (check_server_health probe config protocol).error = none ∧
        ∀ probe' : Prober,
          check_server_health probe' config protocol
            = check_server_health probe config protocol) := by
  rcases hv : validate_config config with ⟨b, verr, vh, vp⟩
  simp only [hv]
  refine ⟨?_, ?_, ?_⟩
  · intro hb
    subst hb
    have key : ∀ pr : Prober, check_server_health pr config protocol
        = ServerHealth.mk config protocol .invalid none none .jnull .jnull verr := by
      intro pr
      rw [check_server_health_eq pr config protocol false verr vh vp hv]
      simp
    rw [key probe]
    exact ⟨rfl, rfl, rfl, fun probe' => key probe'⟩
  · intro hb htr1 htr2
    subst hb
    have hguard : ¬ ¬ (jTruthy vh ∧ jTruthy vp) := by simp [htr1, htr2]
    refine ⟨?_, ?_, ?_⟩
    · intro l hpl
      have htcp : check_tcp_connectivity probe vh vp = (true, some l, none) := by
        unfold check_tcp_connectivity
        rw [if_neg hguard, hpl]
      rw [check_server_health_eq probe config protocol true verr vh vp hv,
          if_neg (by simp), if_pos (by exact ⟨htr1, htr2⟩), htcp]
      exact ⟨rfl, rfl⟩
    · intro hpl
      have htcp : check_tcp_connectivity probe vh vp
          = (false, none, some (pys "Connection timeout")) := by
        unfold check_tcp_connectivity
        rw [if_neg hguard, hpl]
      rw [check_server_health_eq probe config protocol true verr vh vp hv,
          if_neg (by simp), if_pos (by exact ⟨htr1, htr2⟩), htcp]
      exact ⟨rfl, rfl⟩
    · intro m hpl
      have htcp : check_tcp_connectivity probe vh vp
          = (false, none, some (pys "Connection failed: " ++ m)) := by
        unfold check_tcp_connectivity
        rw [if_neg hguard, hpl]
      rw [check_server_health_eq probe config protocol true verr vh vp hv,
          if_neg (by simp), if_pos (by exact ⟨htr1, htr2⟩), htcp]
  · intro hb hh hp
    subst hb
    subst hh
    subst hp
    have key : ∀ pr : Prober, check_server_health pr config protocol
        = ServerHealth.mk config protocol .healthy none none .jnull .jnull none := by
      intro pr
      rw [check_server_health_eq pr config protocol true verr .jnull .jnull hv]
      simp [jTruthy]
    rw [key probe]
    exact ⟨rfl, rfl, rfl, fun probe' => key probe'⟩

/-- A probe oracle that always connects at 50 ms. -/
def probeOk50 : Prober := fun _ _ => .success 50

/-- A probe oracle that always times out. -/
def probeTimeout : Prober := fun _ _ => .timeout

theorem C4_witness :
    (check_server_health probeOk50 (pys "http://x") (pys "unknown")).status
      = .invalid ∧
    (check_server_health probeOk50 (pys "vless://uuid@example.com:443?x=1")
      (pys "vless")).status = .healthy ∧
    (check_server_health probeTimeout (pys "vless://uuid@example.com:443?x=1")
      (pys "vless")).status = .unreachable ∧
    (check_server_health probeOk50 (pys "ssr://x") (pys "ssr")).status = .healthy := by
  refine ⟨?_, ?_, ?_, ?_⟩
  · exact ((C4_check_server_health_spec probeOk50 (pys "http://x")
      (pys "unknown")).1 rfl).1
  · have h := (((C4_check_server_health_spec probeOk50
      (pys "vless://uuid@example.com:443?x=1") (pys "vless")).2.1
      rfl rfl rfl).1 50 rfl).1
    rw [h]
    norm_num
  · exact (((C4_check_server_health_spec probeTimeout
      (pys "vless://uuid@example.com:443?x=1") (pys "vless")).2.1
      rfl rfl rfl).2.1 rfl).1
  · exact ((C4_check_server_health_spec probeOk50 (pys "ssr://x")
      (pys "ssr")).2.2 rfl rfl rfl).1

theorem connection_failed_ne (m : PyStr) :
    pys "Connection failed: " ++ m ≠ pys "Missing host or port" := by
  intro h
  have h' : 'C' :: (pys "onnection failed: " ++ m)
      = 'M' :: pys "issing host or port" := h
  injection h' with h1 _
  exact absurd h1 (by decide)

/-- **C5.** (implicit) For every config that validates but whose
extracted host is `None`/empty or whose port is `None`/0, no probe is
performed and the record is `Healthy` with no latency, no error and
quality score 50; moreover `check_tcp_connectivity` never returns the
`"Missing host or port"` error when its arguments are truthy, so that
branch is unreachable from `check_server_health` — no record it
produces ever carries that error. -/
theorem C5_falsy_target_no_probe (probe : Prober) (config protocol : PyStr) :
    ((validate_config config).1 = true →
      ((validate_config config).2.2.1 = .jnull ∨
       (validate_config config).2.2.1 = .jstr [] ∨
       (validate_config config).2.2.2 = .jnull ∨
       (validate_config config).2.2.2 = .jint 0) →
        (check_server_health probe config protocol).status = .healthy ∧
        (check_server_health probe config protocol).latency_ms = none ∧
        (check_server_health probe config protocol).error = none ∧
        quality_score (check_server_health probe config protocol) = 50 ∧
        ∀ probe' : Prober,
          check_server_health probe' config protocol
            = check_server_health probe config protocol) ∧
    (∀ h p : JVal, jTruthy h = true → jTruthy p = true →
        (check_tcp_connectivity probe h p).2.2 ≠ some (pys "Missing host or port")) ∧
    (check_server_health probe config protocol).error
        ≠ some (pys "Missing host or port") := by
  have tcp_ne : ∀ h p : JVal, jTruthy h = true → jTruthy p = true →
      (check_tcp_connectivity probe h p).2.2 ≠ some (pys "Missing host or port") := by
    intro h p hth htp
    unfold check_tcp_connectivity
    rw [if_neg (by simp [hth, htp])]
    cases probe h p with
    | success l => simp
    | timeout =>
      simp only [ne_eq, Option.some.injEq]
      intro hcon
      have h' : 'C' :: pys "onnection timeout" = 'M' :: pys "issing host or port" := hcon
      injection h' with h1 _
      exact absurd h1 (by decide)
    | connectError m =>
      simp only [ne_eq, Option.some.injEq]
      exact connection_failed_ne m
  rcases hv : validate_config config with ⟨b, verr, vh, vp⟩
  simp only [hv]
  refine ⟨?_, tcp_ne, ?_⟩
  · intro hb hfalsy
    subst hb
    have hfalse : ¬ (jTruthy vh ∧ jTruthy vp) := by
      rcases hfalsy with h | h | h | h <;> subst h <;> simp [jTruthy]
    have key : ∀ pr : Prober, check_server_health pr config protocol
        = ServerHealth.mk config protocol .healthy none none vh vp none := by
      intro pr
      rw [check_server_health_eq pr config protocol true verr vh vp hv]
      simp [hfalse]
    rw [key probe]
    exact ⟨rfl, rfl, rfl, by simp [quality_score], fun probe' => key probe'⟩
  · cases b with
    | false =>
      rw [check_server_health_eq probe config protocol false verr vh vp hv]
      simp
    | true =>
      rw [check_server_health_eq probe config protocol true verr vh vp hv]
      by_cases htr : jTruthy vh ∧ jTruthy vp
      · rw [if_neg (by simp), if_pos htr]
        rcases hc : check_tcp_connectivity probe vh vp with ⟨re, lat, er⟩
        have her := tcp_ne vh vp (by simp [htr.1]) (by simp [htr.2])
        rw [hc] at her
        cases re with
        | true => simp
        | false => simpa using her
      · rw [if_neg (by simp), if_neg htr]
        simp

theorem C5_witness :
    (check_server_health probeTimeout (pys "vmess://eyJhZGQiOiJoIn0=")
      (pys "vmess")).status = .healthy ∧
    (check_server_health probeTimeout (pys "vmess://eyJhZGQiOiJoIn0=")
      (pys "vmess")).latency_ms = none ∧
    quality_score (check_server_health probeTimeout
      (pys "vmess://eyJhZGQiOiJoIn0=") (pys "vmess")) = 50 := by
  have h := (C5_falsy_target_no_probe probeTimeout
    (pys "vmess://eyJhZGQiOiJoIn0=") (pys "vmess")).1 rfl
    (Or.inr (Or.inr (Or.inr rfl)))
  exact ⟨h.1, h.2.1, h.2.2.2.1⟩

theorem pyStrip_vmess (r : PyStr) :
    ∃ r', pyStrip (pys "vmess://" ++ r) = pys "vmess://" ++ r' :=
  pyStrip_keeps 'v' (pys "mess:/") '/' r (by decide) (by decide)

theorem pyStrip_vless (r : PyStr) :
    ∃ r', pyStrip (pys "vless://" ++ r) = pys "vless://" ++ r' :=
  pyStrip_keeps 'v' (pys "less:/") '/' r (by decide) (by decide)

theorem pyStrip_trojan (r : PyStr) :
    ∃ r', pyStrip (pys "trojan://" ++ r) = pys "trojan://" ++ r' :=
  pyStrip_keeps 't' (pys "rojan:/") '/' r (by decide) (by decide)

theorem pyStrip_ss (r : PyStr) :
    ∃ r', pyStrip (pys "ss://" ++ r) = pys "ss://" ++ r' :=
  pyStrip_keeps 's' (pys "s:/") '/' r (by decide) (by decide)

/-- **C7.** (amended) For strings starting with `vless://`
(resp. `trojan://`), `validate_config` — after stripping surrounding
whitespace — removes every occurrence of the scheme, requires an `@`,
takes the segment **between the first and second** `@` (`split("@")[1]`;
everything after the `@` when it is unique), strips from the first `?`
on, requires the remainder to be host and integer port separated by a
single `:`, and returns `(True, None, host, port)` on success and
`(False, "Invalid vless format" / "Invalid trojan format", None, None)`
otherwise; in particular
`validate("vless://uuid@example.com:443?x=1") = (True, None, "example.com", 443)`. -/
theorem C7_validate_vless_trojan_spec :
    (∀ s : PyStr, pyStartsWith (pys "vless://") s = true →
        validate_config s =
          match specVlessCore (pyReplace (pys "vless://") [] (pyStrip s)) with
          | some (h, p) => (true, none, JVal.jstr h, JVal.jint p)
          | none => (false, some (pys "Invalid vless format"), JVal.jnull, JVal.jnull)) ∧
    (∀ s : PyStr, pyStartsWith (pys "trojan://") s = true →
        validate_config s =
          match specVlessCore (pyReplace (pys "trojan://") [] (pyStrip s)) with
          | some (h, p) => (true, none, JVal.jstr h, JVal.jint p)
          | none => (false, some (pys "Invalid trojan format"), JVal.jnull, JVal.jnull)) ∧
    validate_config (pys "vless://uuid@example.com:443?x=1")
      = (true, none, JVal.jstr (pys "example.com"), JVal.jint 443) := by
  refine ⟨?_, ?_, rfl⟩
  · intro s hs
    obtain ⟨r, rfl⟩ := (pyStartsWith_iff _ s).mp hs
    obtain ⟨r', hr'⟩ := pyStrip_vless r
    unfold validate_config
    dsimp only []
    rw [hr']
    have hx : extract_vless_info (pys "vless://" ++ r')
        = specVlessCore (pyReplace (pys "vless://") [] (pys "vless://" ++ r')) :=
      vlessCore_eq_spec _
    rw [hx]
    rfl
  · intro s hs
    obtain ⟨r, rfl⟩ := (pyStartsWith_iff _ s).mp hs
    obtain ⟨r', hr'⟩ := pyStrip_trojan r
    unfold validate_config
    dsimp only []
    rw [hr']
    have hx : extract_trojan_info (pys "trojan://" ++ r')
        = specVlessCore (pyReplace (pys "trojan://") [] (pys "trojan://" ++ r')) :=
      vlessCore_eq_spec _
    rw [hx]
    rfl

theorem C7_witness :
    validate_config (pys "vless://u@h:1")
      = (true, none, JVal.jstr (pys "h"), JVal.jint 1) := by
  rw [C7_validate_vless_trojan_spec.1 (pys "vless://u@h:1") rfl]
  rfl

theorem C7_counterexample :
    validate_config (pys "vless://u@host@x:443")
      = (false, some (pys "Invalid vless format"), JVal.jnull, JVal.jnull) ∧
    claimVlessValidate (pys "vless://u@host@x:443")
      = (true, none, JVal.jstr (pys "host@x"), JVal.jint 443) :=
  ⟨rfl, rfl⟩

/-- **C8.** (amended) For strings starting with `ss://`,
`validate_config` — after stripping surrounding whitespace — removes
every occurrence of `ss://`; if an `@` is present it takes the segment
**between the first and second** `@` (`split("@")[1]`) and splits it on
`:` taking the first two components as host and port; with no `@` it
base64-decodes the whole remainder and, when the decoded text contains
`@`, applies the same extraction to it, otherwise the config is invalid;
it returns `(True, None, host, port)` with an integer-parsed port on
success and `(False, "Invalid shadowsocks format", None, None)` on any
failure. -/
theorem C8_validate_ss_spec :
    ∀ s : PyStr, pyStartsWith (pys "ss://") s = true →
      validate_config s =
        match specSsCore (pyReplace (pys "ss://") [] (pyStrip s)) with
        | some (h, p) => (true, none, JVal.jstr h, JVal.jint p)
        | none => (false, some (pys "Invalid shadowsocks format"),
                   JVal.jnull, JVal.jnull) := by
  intro s hs
  obtain ⟨r, rfl⟩ := (pyStartsWith_iff _ s).mp hs
  obtain ⟨r', hr'⟩ := pyStrip_ss r
  unfold validate_config
  dsimp only []
  rw [hr']
  have hx : extract_ss_info (pys "ss://" ++ r')
      = specSsCore (pyReplace (pys "ss://") [] (pys "ss://" ++ r')) :=
    extract_ss_info_eq_spec _
  rw [hx]
  rfl

theorem C8_witness :
    validate_config (pys "ss://aes:pw@h:17")
      = (true, none, JVal.jstr (pys "h"), JVal.jint 17) := by
  rw [C8_validate_ss_spec (pys "ss://aes:pw@h:17") rfl]
  rfl

theorem C8_counterexample :
    validate_config (pys "ss://m@h@x:1")
      = (false, some (pys "Invalid shadowsocks format"), JVal.jnull, JVal.jnull) ∧
    claimSsValidate (pys "ss://m@h@x:1")
      = (true, none, JVal.jstr (pys "h@x"), JVal.jint 1) :=
  ⟨rfl, rfl⟩

/-- **C9.** (amended) `validate_config` first strips surrounding
whitespace and then dispatches purely by a case-sensitive exact literal
prefix match on the **stripped** string: a stripped string with prefix
`ssr://` yields `(True, None, None, None)`, and a stripped string with
none of the five scheme prefixes (including no `://` at all) yields
`(False, "Unknown protocol", None, None)`. -/
theorem C9_validate_dispatch_spec (s : PyStr) :
    (pyStartsWith (pys "ssr://") (pyStrip s) = true →
        validate_config s = (true, none, JVal.jnull, JVal.jnull)) ∧
    (pyStartsWith (pys "vmess://") (pyStrip s) = false →
     pyStartsWith (pys "vless://") (pyStrip s) = false →
     pyStartsWith (pys "trojan://") (pyStrip s) = false →
     pyStartsWith (pys "ss://") (pyStrip s) = false →
     pyStartsWith (pys "ssr://") (pyStrip s) = false →
        validate_config s
          = (false, some (pys "Unknown protocol"), JVal.jnull, JVal.jnull)) := by
  constructor
  · intro h
    obtain ⟨r, hr⟩ := (pyStartsWith_iff _ _).mp h
    unfold validate_config
    dsimp only []
    rw [hr]
    rfl
  · intro h1 h2 h3 h4 h5
    unfold validate_config
    dsimp only []
    rw [h1, h2, h3, h4, h5]
    rfl

theorem C9_witness :
    validate_config (pys "ssr://anything") = (true, none, JVal.jnull, JVal.jnull) ∧
    validate_config (pys "http://example.com")
      = (false, some (pys "Unknown protocol"), JVal.jnull, JVal.jnull) := by
  constructor
  · exact (C9_validate_dispatch_spec (pys "ssr://anything")).1 rfl
  · exact (C9_validate_dispatch_spec (pys "http://example.com")).2 rfl rfl rfl rfl rfl

theorem C9_counterexample :
    validate_config (pys " ssr://x") = (true, none, JVal.jnull, JVal.jnull) ∧
    pyStartsWith (pys "vmess://") (pys " ssr://x") = false ∧
    pyStartsWith (pys "vless://") (pys " ssr://x") = false ∧
    pyStartsWith (pys "trojan://") (pys " ssr://x") = false ∧
    pyStartsWith (pys "ss://") (pys " ssr://x") = false ∧
    pyStartsWith (pys "ssr://") (pys " ssr://x") = false :=
  ⟨rfl, rfl, rfl, rfl, rfl, rfl⟩

/-- **C6.** (amended) For strings starting with `vmess://`,
`validate_config` — after stripping surrounding whitespace — removes
every occurrence of `vmess://`, pads the remainder with `=` by
`4 - (len % 4)` unless that remainder is 0, base64-decodes it, parses
the bytes as UTF-8 JSON, takes host as the **first truthy** of the
`add` and `address` fields (falling back to `address` also when `add`
is present but falsy, e.g. empty), and the port as the integer parse of
the `port` field defaulting to 0 when missing; on success it returns
`(True, None, host, port)`, and on any decode/JSON/field error it
returns `(False, "Invalid vmess format", None, None)`.  Hence every
config whose decoded pipeline yields host `H` and port `P` validates as
`(True, None, H, P)`. -/
theorem C6_validate_vmess_spec :
    ∀ s : PyStr, pyStartsWith (pys "vmess://") s = true →
      (validate_config s =
        match specVmessCore (pyStrip s) with
        | some (h, p) => (true, none, h, JVal.jint p)
        | none => (false, some (pys "Invalid vmess format"),
                   JVal.jnull, JVal.jnull)) ∧
      (∀ (h : JVal) (p : Int), specVmessCore (pyStrip s) = some (h, p) →
        validate_config s = (true, none, h, JVal.jint p)) := by
  intro s hs
  obtain ⟨r, rfl⟩ := (pyStartsWith_iff _ s).mp hs
  obtain ⟨r', hr'⟩ := pyStrip_vmess r
  have hmain : validate_config (pys "vmess://" ++ r) =
      match specVmessCore (pyStrip (pys "vmess://" ++ r)) with
      | some (h, p) => (true, none, h, JVal.jint p)
      | none => (false, some (pys "Invalid vmess format"),
                 JVal.jnull, JVal.jnull) := by
    unfold validate_config
    dsimp only []
    rw [hr']
    have hx : extract_vmess_info (pys "vmess://" ++ r')
        = specVmessCore (pys "vmess://" ++ r') :=
      extract_vmess_info_eq_spec _
    rw [hx]
    rfl
  refine ⟨hmain, ?_⟩
  intro h p hsp
  rw [hmain, hsp]

theorem C6_witness :
    validate_config (pys "vmess://eyJhZGQiOiJleGFtcGxlLmNvbSIsInBvcnQiOjQ0M30=")
      = (true, none, JVal.jstr (pys "example.com"), JVal.jint 443) :=
  (C6_validate_vmess_spec
    (pys "vmess://eyJhZGQiOiJleGFtcGxlLmNvbSIsInBvcnQiOjQ0M30=") rfl).2
    (JVal.jstr (pys "example.com")) 443 rfl

theorem C6_counterexample :
    validate_config (pys "vmess://eyJhZGQiOiIiLCJhZGRyZXNzIjoiciIsInBvcnQiOjF9")
      = (true, none, JVal.jstr (pys "r"), JVal.jint 1) ∧
    ((pyB64Decode (pys "eyJhZGQiOiIiLCJhZGRyZXNzIjoiciIsInBvcnQiOjF9")).bind
        utf8Decode).bind jsonLoads
      = some (JVal.jobj [(pys "add", JVal.jstr []),
                         (pys "address", JVal.jstr (pys "r")),
                         (pys "port", JVal.jint 1)]) ∧
    claimVmessHost [(pys "add", JVal.jstr []),
                    (pys "address", JVal.jstr (pys "r")),
                    (pys "port", JVal.jint 1)] = JVal.jstr [] :=
  ⟨rfl, rfl, rfl⟩

/-- The loop of `filter_healthy_servers` keeps exactly the records that
are not `Invalid`, not `Unreachable` when exclusion is on, and at least
at the minimum score. -/
theorem filter_healthy_servers_eq_filter (hr : List ServerHealth) (mq : ℚ) (ex : Bool) :
    filter_healthy_servers hr mq ex
      = hr.filter (fun h => decide (h.status ≠ HealthStatus.invalid ∧
          (ex = true → h.status ≠ HealthStatus.unreachable) ∧
          mq ≤ quality_score h)) := by
  induction hr with
  | nil => rfl
  | cons x rest ih =>
    unfold filter_healthy_servers
    rw [ih, List.filter_cons]
    by_cases h1 : x.status = HealthStatus.invalid
    · have hp : decide (x.status ≠ HealthStatus.invalid ∧
          (ex = true → x.status ≠ HealthStatus.unreachable) ∧
          mq ≤ quality_score x) = false :=
        decide_eq_false (by rintro ⟨hne, -, -⟩; exact hne h1)
      rw [if_pos h1, hp]
      simp
    · by_cases h2 : ex = true ∧ x.status = HealthStatus.unreachable
      · have hp : decide (x.status ≠ HealthStatus.invalid ∧
            (ex = true → x.status ≠ HealthStatus.unreachable) ∧
            mq ≤ quality_score x) = false :=
          decide_eq_false (by rintro ⟨-, himp, -⟩; exact himp h2.1 h2.2)
        rw [if_neg h1, if_pos h2, hp]
        simp
      · by_cases h3 : quality_score x ≥ mq
        · have hp : decide (x.status ≠ HealthStatus.invalid ∧
              (ex = true → x.status ≠ HealthStatus.unreachable) ∧
              mq ≤ quality_score x) = true :=
            decide_eq_true ⟨h1, fun hex hunr => h2 ⟨hex, hunr⟩, h3⟩
          rw [if_neg h1, if_neg h2, if_pos h3, hp]
          simp
        · have hp : decide (x.status ≠ HealthStatus.invalid ∧
              (ex = true → x.status ≠ HealthStatus.unreachable) ∧
              mq ≤ quality_score x) = false :=
            decide_eq_false (by rintro ⟨-, -, hq⟩; exact h3 hq)
          rw [if_neg h1, if_neg h2, if_neg h3, hp]
          simp

theorem statusValue_inj {a b : HealthStatus} (h : statusValue a = statusValue b) :
    a = b := by
  cases a <;> cases b <;> first | rfl | exact absurd h (by decide)

/-- **C1.** (amended) The tail of `get_servers_with_health`: the
records are filtered through `filter_healthy_servers` **only when**
`filter_unhealthy` is set or `min_quality_score > 0` (with the default
parameters no filtering at all happens and `Invalid` records remain in
the output); the filter keeps exactly the records that are not
`Invalid`, not `Unreachable` when `filter_unhealthy`, and of quality at
least `min_quality_score`; the kept records are returned sorted by
quality score descending (a permutation of the kept set). -/
theorem C1_health_post_spec (hr : List ServerHealth) (fu : Bool) (mq : ℚ) :
    (healthPost hr fu mq
      = (sort_by_quality (if fu || decide (mq > 0)
          then filter_healthy_servers hr mq fu else hr) true).map toDict) ∧
    (filter_healthy_servers hr mq fu
      = hr.filter (fun h => decide (h.status ≠ HealthStatus.invalid ∧
          (fu = true → h.status ≠ HealthStatus.unreachable) ∧
          mq ≤ quality_score h))) ∧
    List.Sorted qualityGE (sort_by_quality (if fu || decide (mq > 0)
        then filter_healthy_servers hr mq fu else hr) true) ∧
    (sort_by_quality (if fu || decide (mq > 0)
        then filter_healthy_servers hr mq fu else hr) true).Perm
      (if fu || decide (mq > 0) then filter_healthy_servers hr mq fu else hr) ∧
    ((fu || decide (mq > 0)) = true →
      ∀ d ∈ healthPost hr fu mq, d.health_status ≠ some (statusValue .invalid)) := by
  refine ⟨rfl, filter_healthy_servers_eq_filter hr mq fu, ?_, ?_, ?_⟩
  · show List.Sorted qualityGE (List.insertionSort qualityGE _)
    exact List.sorted_insertionSort qualityGE _
  · show (List.insertionSort qualityGE _).Perm _
    exact List.perm_insertionSort qualityGE _
  · intro hcond d hd
    have hd' : d ∈ (sort_by_quality (if fu || decide (mq > 0)
        then filter_healthy_servers hr mq fu else hr) true).map toDict := hd
    obtain ⟨x, hx, rfl⟩ := List.mem_map.mp hd'
    have hperm : (sort_by_quality (if fu || decide (mq > 0)
        then filter_healthy_servers hr mq fu else hr) true).Perm
        (if fu || decide (mq > 0) then filter_healthy_servers hr mq fu else hr) :=
      List.perm_insertionSort qualityGE _
    have hx2 : x ∈ (if fu || decide (mq > 0)
        then filter_healthy_servers hr mq fu else hr) := hperm.mem_iff.mp hx
    rw [if_pos hcond] at hx2
    rw [filter_healthy_servers_eq_filter hr mq fu] at hx2
    have hpred := List.of_mem_filter hx2
    have hstat : x.status ≠ HealthStatus.invalid := (of_decide_eq_true hpred).1
    intro hcon
    have : statusValue x.status = statusValue .invalid := Option.some.inj hcon
    exact hstat (statusValue_inj this)

def C1cex_rec : ServerHealth :=
  ServerHealth.mk (pys "bad") (pys "unknown") .invalid none none .jnull .jnull
    (some (pys "Unknown protocol"))

/-- With the default filter parameters (`filter_unhealthy = False`,
`min_quality_score = 0`) the filter branch is skipped and an `Invalid`
record **does** appear in the output, contradicting the claim. -/
theorem C1_counterexample :
    healthPost [C1cex_rec] false 0 = [toDict C1cex_rec] ∧
    (toDict C1cex_rec).health_status = some (pys "invalid") ∧
    C1cex_rec.status = .invalid :=
  ⟨rfl, rfl, rfl⟩

def C1w_rec : ServerHealth :=
  ServerHealth.mk (pys "ok") (pys "vmess") .healthy none none .jnull .jnull none

theorem C1_witness :
    (toDict C1w_rec).health_status ≠ some (statusValue .invalid) := by
  refine (C1_health_post_spec [C1w_rec] true 0).2.2.2.2 rfl (toDict C1w_rec) ?_
  rw [show healthPost [C1w_rec] true 0 = [toDict C1w_rec] from rfl]
  exact List.mem_singleton.mpr rfl

/-- Once the stop token is set, `healthLoop` processes nothing. -/
theorem healthLoop_stopped (eff : Nat → List (PyStr × PyStr) → BatchEff)
    (cs : List (List (PyStr × PyStr))) (k : Nat) :
    healthLoop eff cs k true = ([], true) := by
  cases cs <;> rfl

/-- **C2.** (amended) The stop token is checked **before** every chunk:
once set, no further chunk is processed and the results already
accumulated still flow through filtering/sorting/return.  A token set
*during* chunk `k`'s processing takes effect only at chunk `k+1`'s
check, so chunk `k`'s own results are kept; a `KeyboardInterrupt`
raised during a chunk instead discards that chunk's results, sets the
token and stops.  In particular, with 6 servers and `batch_size = 3`,
a `KeyboardInterrupt` during batch 2 makes the pipeline return exactly
batch 1's results (post-processed) with the token reading set. -/
theorem C2_batch_cancellation_spec :
    (∀ (eff : Nat → List (PyStr × PyStr) → BatchEff)
       (cs : List (List (PyStr × PyStr))) (k : Nat),
        healthLoop eff cs k true = ([], true)) ∧
    (∀ (eff : Nat → List (PyStr × PyStr) → BatchEff)
       (c : List (PyStr × PyStr)) (cs : List (List (PyStr × PyStr))) (k : Nat),
        (eff k c).raisesKI = false → (eff k c).setsToken = true →
        healthLoop eff (c :: cs) k false = ((eff k c).results, true)) ∧
    (∀ (eff : Nat → List (PyStr × PyStr) → BatchEff)
       (c : List (PyStr × PyStr)) (cs : List (List (PyStr × PyStr))) (k : Nat),
        (eff k c).raisesKI = true →
        healthLoop eff (c :: cs) k false = ([], true)) ∧
    (∀ (eff : Nat → List (PyStr × PyStr) → BatchEff)
       (tuples c0 c1 : List (PyStr × PyStr)) (fu : Bool) (mq : ℚ),
        chunkList 3 tuples = [c0, c1] →
        (eff 0 c0).raisesKI = false → (eff 0 c0).setsToken = false →
        (eff 1 c1).raisesKI = true →
        get_servers_with_health_run eff tuples 3 fu mq false
          = (healthPost (eff 0 c0).results fu mq, true)) := by
  refine ⟨healthLoop_stopped, ?_, ?_, ?_⟩
  · intro eff c cs k h1 h2
    have step : healthLoop eff (c :: cs) k false
        = (if (eff k c).raisesKI then ([], true)
           else ((eff k c).results
                  ++ (healthLoop eff cs (k + 1) (false || (eff k c).setsToken)).1,
                 (healthLoop eff cs (k + 1) (false || (eff k c).setsToken)).2)) := rfl
    rw [step, h1, h2]
    simp [healthLoop_stopped]
  · intro eff c cs k h1
    have step : healthLoop eff (c :: cs) k false
        = (if (eff k c).raisesKI then ([], true)
           else ((eff k c).results
                  ++ (healthLoop eff cs (k + 1) (false || (eff k c).setsToken)).1,
                 (healthLoop eff cs (k + 1) (false || (eff k c).setsToken)).2)) := rfl
    rw [step, h1]
    simp
  · intro eff tuples c0 c1 fu mq hchunk h1 h2 h3
    unfold get_servers_with_health_run
    rw [hchunk]
    have hl : healthLoop eff [c0, c1] 0 false = ((eff 0 c0).results, true) := by
      have step1 : healthLoop eff [c0, c1] 0 false
          = (if (eff 0 c0).raisesKI then ([], true)
             else ((eff 0 c0).results
                    ++ (healthLoop eff [c1] 1 (false || (eff 0 c0).setsToken)).1,
                   (healthLoop eff [c1] 1 (false || (eff 0 c0).setsToken)).2)) := rfl
      rw [step1, h1, h2]
      have step2 : healthLoop eff [c1] 1 (false || false)
          = (if (eff 1 c1).raisesKI then ([], true)
             else ((eff 1 c1).results
                    ++ (healthLoop eff [] 2 (false || (eff 1 c1).setsToken)).1,
                   (healthLoop eff [] 2 (false || (eff 1 c1).setsToken)).2)) := rfl
      rw [step2, h3]
      simp
    rw [hl]

def C2cex_servers : List (PyStr × PyStr) :=
  [(pys "s0", pys "vmess"), (pys "s1", pys "vmess"), (pys "s2", pys "vmess"),
   (pys "s3", pys "vmess"), (pys "s4", pys "vmess"), (pys "s5", pys "vmess")]

/-- A checker that sets the stop token while processing batch 2 (index 1)
but raises no interrupt. -/
def C2cex_eff : Nat → List (PyStr × PyStr) → BatchEff := fun k batch =>
  { results := batch.map (fun t =>
      ServerHealth.mk t.1 t.2 .healthy none none .jnull .jnull none),
    setsToken := decide (k = 1), raisesKI := false }

/-- Setting the token during batch 2's processing does **not** drop
batch 2's results: all 6 records are returned (the claim predicted
exactly the 3 of batch 1). -/
theorem C2_counterexample :
    (get_servers_with_health_run C2cex_eff C2cex_servers 3 false 0 false).1.length = 6 ∧
    (get_servers_with_health_run C2cex_eff C2cex_servers 3 false 0 false).2 = true :=
  ⟨rfl, rfl⟩

/-- A checker that raises `KeyboardInterrupt` while processing batch 2. -/
def C2w_eff : Nat → List (PyStr × PyStr) → BatchEff := fun k batch =>
  { results := batch.map (fun t =>
      ServerHealth.mk t.1 t.2 .healthy none none .jnull .jnull none),
    setsToken := false, raisesKI := decide (k = 1) }

theorem C2_witness :
    get_servers_with_health_run C2w_eff C2cex_servers 3 false 0 false
      = (healthPost (C2w_eff 0 [(pys "s0", pys "vmess"), (pys "s1", pys "vmess"),
          (pys "s2", pys "vmess")]).results false 0, true) ∧
    (get_servers_with_health_run C2w_eff C2cex_servers 3 false 0 false).1.length = 3 := by
  constructor
  · exact C2_batch_cancellation_spec.2.2.2 C2w_eff C2cex_servers
      [(pys "s0", pys "vmess"), (pys "s1", pys "vmess"), (pys "s2", pys "vmess")]
      [(pys "s3", pys "vmess"), (pys "s4", pys "vmess"), (pys "s5", pys "vmess")]
      false 0 rfl rfl rfl rfl
  · rfl

end V2ray
